import Mathlib

/-!
Shallow embedding of `src/seeker/src/client/ruled_client.rs` (the rule-based
classification / dispatch / failover engine of the seeker proxy client).

External collaborators (rule engine, OS socket-ownership query, direct client,
shadowsocks client) are modelled as oracle fields carrying their observable
behaviour; the engine's own logic is translated function-by-function from the
source.  Side effects (log lines, registry inserts/removes, backend dispatch)
are reified as an event trace so that ordering and cardinality claims can be
stated.  Machine integers are modelled as `Nat` with explicit `% 2 ^ 64` at the
one place the source wraps (the `AtomicU64` connection-id counter).
-/

namespace Seeker

/-- I/O errors (`std::io::Error`), identified by their message. -/
structure IoError where
  msg : String
deriving DecidableEq, Repr

/-- `SocketAddr`, modelled by its string form (only equality and the
string conversion are used by the code). -/
abbrev SockAddr := String

/-- `config::Address`: either a literal socket address or a domain name plus
port. -/
inductive Address where
  | SocketAddress (a : SockAddr)
  | DomainNameAddress (domain : String) (port : Nat)
deriving DecidableEq, Repr

/-- `config::rule::Action`. -/
inductive Action where
  | Reject
  | Direct
  | Proxy
  | Probe
deriving DecidableEq, Repr

/-- `config::rule::ProxyRules`: opaque, queried-only rule engine.  Modelled by
its two query functions. -/
structure ProxyRules where
  action_for_domain : String → Option Action
  default_action : Action

/-- A proxy server configuration; only its name is consulted by this file's
code (`s.name()`), the rest of the configuration rides along opaquely. -/
structure ServerConfig where
  name : String
deriving DecidableEq, Repr

/-- `config::Config`: the fields this engine reads. -/
structure Config where
  server_configs : List ServerConfig
  max_connect_errors : Nat
deriving DecidableEq, Repr

/-- `sysconfig::SocketInfo`: only the `local` field is consulted. -/
structure SocketInfo where
  local_addr : SockAddr
deriving DecidableEq, Repr

/-- The OS ownership collaborator: `list_user_proc_socks(uid)` returns a map
from process id to that process's sockets, or an I/O error. -/
structure OsEnv where
  list_user_proc_socks : Nat → Except IoError (List (Int × List SocketInfo))

/-- `Connection`: the record stored in the connection registry. -/
structure Connection where
  address : Address
  connect_time : Int
  sent_bytes : Nat
  recv_bytes : Nat
  action : Action
deriving DecidableEq, Repr

/-- Mutable state of the `SSClient` collaborator that this engine reads and
writes: the active (swappable) server configuration, whose `name()` the
failover check compares, and the consecutive-connect-error counter that
`connect_errors()` reads. -/
structure SSClientState where
  active : ServerConfig
  connect_errors : Nat
deriving DecidableEq, Repr

/-- The mutable state threaded through a run of the engine: the `AtomicU64`
connection-id counter, the `Mutex<HashMap<u64, Connection>>` registry
(modelled as an association list with HashMap lookup/insert/remove
semantics), and the proxy client's state. -/
structure State where
  counter : Nat
  connections : List (Nat × Connection)
  ss : SSClientState
deriving DecidableEq, Repr

/-- One lifecycle line printed when a connection is deregistered:
"Close connection ..." (`interrupted = false`) or "Interrupt connection ..."
(`interrupted = true`, carrying the error). -/
structure LifecycleLine where
  interrupted : Bool
  error : Option IoError
  id : Nat
  connect_time : Int
  duration : Int
  address : Address
  action : Action
deriving DecidableEq, Repr

/-- Observable events of a run, in program order. -/
inductive Ev where
  | osQuery (addr : SockAddr) (uid : Nat)
  | ruleLookup (domain : String)
  | probeCall (addr : Address) (ok : Bool)
  | logRuleAction (addr : Address) (action : Action)
  | logProbeAction (addr : Address) (action : Action)
  | register (id : Nat) (conn : Connection)
  | dispatchDirectTcp (addr : Address)
  | dispatchProxyTcp (addr : Address)
  | dispatchDirectUdp (addr : Address)
  | dispatchProxyUdp (addr : Address)
  | logFailover (oldName : String) (newName : String)
  | deregister (id : Nat) (removed : Option Connection)
  | lifecycle (line : LifecycleLine)
deriving DecidableEq, Repr

/-- The immutable part of `RuledClient` that the dispatch path reads. -/
structure RuledClient where
  conf : Config
  rule : ProxyRules
  proxy_uid : Option Nat

/-- External behaviour supplied per run: the OS oracle, the direct client's
probe, the backend handlers' results, and the two wall-clock reads
(registration time and close time, in seconds). -/
structure Env where
  os : OsEnv
  probe_connectivity : Address → Bool
  direct_tcp : Except IoError Unit
  proxy_tcp : Except IoError Unit
  direct_udp : Except IoError Unit
  proxy_udp : Except IoError Unit
  time_register : Int
  time_close : Int

/-- `socket_addr_belong_to_user`: queries the OS for all sockets of `uid`'s
processes and reports whether any has `addr` as its local address; an OS
query failure is propagated. -/
def socket_addr_belong_to_user (os : OsEnv) (addr : SockAddr) (uid : Nat) :
    Except IoError Bool :=
  match os.list_user_proc_socks uid with
  | .error e => .error e
  | .ok user_socks =>
      .ok (user_socks.any fun p => p.2.any fun s => s.local_addr == addr)

/-- The rule-lookup key: the string form of a literal socket address, or the
domain (port ignored) of a domain-name address. -/
def domainOf (addr : Address) : String :=
  match addr with
  | Address.SocketAddress a => a
  | Address.DomainNameAddress domain _port => domain

/-- First stage of `RuledClient::get_action_for_addr` (lines 110-115): when a
target UID is configured, ask the OS whether the remote address belongs to
it; `pass_proxy` is true when it does not.  An OS query failure is
propagated. -/
def pass_proxy_check (c : RuledClient) (env : Env) (remote_addr : SockAddr) :
    Except IoError Bool × List Ev :=
  match c.proxy_uid with
  | none => (.ok false, [])
  | some uid =>
      match socket_addr_belong_to_user env.os remote_addr uid with
      | .error e => (.error e, [Ev.osQuery remote_addr uid])
      | .ok belongs => (.ok (!belongs), [Ev.osQuery remote_addr uid])

/-- Second stage of `RuledClient::get_action_for_addr` (lines 116-133): with
`pass_proxy` set, force `Direct`; otherwise look the domain up in the rule
set, falling back to the default action; a resulting `Probe` is resolved by
the direct client's connectivity probe (success → `Direct`, failure →
`Proxy`) and logged as a probe decision, anything else is logged as a rule
decision. -/
def resolve_action (c : RuledClient) (env : Env) (addr : Address)
    (pass_proxy : Bool) : Action × List Ev :=
  let ruled : Action × List Ev :=
    if pass_proxy then
      (Action.Direct, [])
    else
      ((c.rule.action_for_domain (domainOf addr)).getD c.rule.default_action,
        [Ev.ruleLookup (domainOf addr)])
  if ruled.1 = Action.Probe then
    let ok := env.probe_connectivity addr
    let action2 := if ok then Action.Direct else Action.Proxy
    (action2, ruled.2 ++ [Ev.probeCall addr ok, Ev.logProbeAction addr action2])
  else
    (ruled.1, ruled.2 ++ [Ev.logRuleAction addr ruled.1])

/-- `RuledClient::get_action_for_addr`, with its effects (ownership query,
rule lookup, probe, info log) reified in the returned trace. -/
def get_action_for_addr (c : RuledClient) (env : Env) (remote_addr : SockAddr)
    (addr : Address) : Except IoError Action × List Ev :=
  match pass_proxy_check c env remote_addr with
  | (.error e, evs) => (.error e, evs)
  | (.ok pass_proxy, evs) =>
      let r := resolve_action c env addr pass_proxy
      (.ok r.1, evs ++ r.2)

/-- Registry insert (`HashMap::insert`): the new binding shadows and replaces
any previous binding of the same id. -/
def regInsert (l : List (Nat × Connection)) (k : Nat) (v : Connection) :
    List (Nat × Connection) :=
  (k, v) :: l.filter fun p => !(p.1 == k)

/-- Registry remove (`HashMap::remove`): returns the removed record, if any,
and the registry without that id. -/
def regRemove (l : List (Nat × Connection)) (k : Nat) :
    Option Connection × List (Nat × Connection) :=
  ((l.find? fun p => p.1 == k).map (fun p => p.2),
    l.filter fun p => !(p.1 == k))

/-- Registry lookup. -/
def regLookup (l : List (Nat × Connection)) (k : Nat) : Option Connection :=
  (l.find? fun p => p.1 == k).map fun p => p.2

/-- The failover check run on the `Action::Proxy` branch of
`RuledClient::handle_tcp` (lines 170-194): read the consecutive-error count
and the active server's name; past the threshold, find the active server's
position (defaulting to 0), advance one position modulo the list length,
log the rotation, and swap the active configuration.  `none` models the
panic points of the source: `% 0` on an empty list, and the index /
`expect` on a missing entry. -/
def failover_check (conf : Config) (ss : SSClientState) :
    Option (SSClientState × List Ev) :=
  let connect_errors := ss.connect_errors
  let old_server_name := ss.active.name
  if connect_errors > conf.max_connect_errors then
    let old_conf_index :=
      (conf.server_configs.findIdx? fun s => s.name == old_server_name).getD 0
    if conf.server_configs.length = 0 then
      none
    else
      let next_conf_index := (old_conf_index + 1) % conf.server_configs.length
      match conf.server_configs.get? old_conf_index,
            conf.server_configs.get? next_conf_index with
      | some old_conf, some new_conf =>
          some ({ ss with active := new_conf },
            [Ev.logFailover old_conf.name new_conf.name])
      | _, _ => none
  else
    some (ss, [])

/-- Registration step of `handle_tcp` (lines 146-159): fetch-and-increment of
the `AtomicU64` counter (wrapping at `2 ^ 64`) yields the id, and a fresh
`Connection` record is inserted under it. -/
def tcp_register (s : State) (addr : Address) (action : Action) (t : Int) :
    Nat × Connection × State :=
  let index := s.counter
  let conn : Connection :=
    { address := addr, connect_time := t, sent_bytes := 0, recv_bytes := 0,
      action := action }
  (index, conn,
    { s with counter := (s.counter + 1) % 2 ^ 64,
             connections := regInsert s.connections index conn })

/-- Dispatch step of `handle_tcp` (lines 161-201): `Reject` succeeds with no
backend call; `Direct` hands the flow to the direct client; `Proxy` runs the
failover check and then hands the flow to the proxy client; `Probe` is
`unreachable!()` (modelled as `none`, a panic). -/
def tcp_dispatch (c : RuledClient) (env : Env) (s : State) (addr : Address)
    (action : Action) : Option (Except IoError Unit × State × List Ev) :=
  match action with
  | Action.Reject => some (.ok (), s, [])
  | Action.Direct => some (env.direct_tcp, s, [Ev.dispatchDirectTcp addr])
  | Action.Proxy =>
      match failover_check c.conf s.ss with
      | none => none
      | some (ss2, fevs) =>
          some (env.proxy_tcp, { s with ss := ss2 },
            fevs ++ [Ev.dispatchProxyTcp addr])
  | Action.Probe => none

/-- The lifecycle line printed for a deregistered record: "Interrupt" with
the error when the backend failed, "Close" otherwise; duration is the
wall-clock difference from the stored connect time. -/
def lineFor (index : Nat) (conn : Connection) (ret : Except IoError Unit)
    (t : Int) : LifecycleLine :=
  { interrupted := match ret with | .error _ => true | .ok _ => false,
    error := match ret with | .error e => some e | .ok _ => none,
    id := index,
    connect_time := conn.connect_time,
    duration := t - conn.connect_time,
    address := conn.address, action := conn.action }

/-- Deregistration step of `handle_tcp` (lines 202-211): remove the record,
and if one was present print exactly one lifecycle line. -/
def tcp_finish (s : State) (index : Nat) (ret : Except IoError Unit)
    (t : Int) : State × List Ev :=
  let removed := (regRemove s.connections index).1
  let s2 := { s with connections := (regRemove s.connections index).2 }
  let lifeEvs : List Ev :=
    match removed with
    | none => []
    | some conn => [Ev.lifecycle (lineFor index conn ret t)]
  (s2, Ev.deregister index removed :: lifeEvs)

/-- `RuledClient::handle_tcp`: resolve the action (an I/O error aborts before
registration and is returned), register, dispatch by action, deregister and
log, and return the backend's result unchanged.  `none` models a panic. -/
def handle_tcp (c : RuledClient) (env : Env) (s : State)
    (remote_addr : SockAddr) (addr : Address) :
    Option (Except IoError Unit × State × List Ev) :=
  match get_action_for_addr c env remote_addr addr with
  | (.error e, evs) => some (.error e, s, evs)
  | (.ok action, evs0) =>
      let reg := tcp_register s addr action env.time_register
      let index := reg.1
      let conn := reg.2.1
      let s1 := reg.2.2
      match tcp_dispatch c env s1 addr action with
      | none => none
      | some (ret, s2, dvs) =>
          let fin := tcp_finish s2 index ret env.time_close
          some (ret, fin.1,
            evs0 ++ [Ev.register index conn] ++ dvs ++ fin.2)

/-- `RuledClient::handle_udp`: resolve the action using the socket's local
address (documented approximation), then dispatch; no registry, no counter,
no failover check, no lifecycle logging.  `Probe` is `unreachable!()`. -/
def handle_udp (c : RuledClient) (env : Env) (s : State)
    (local_addr : SockAddr) (addr : Address) :
    Option (Except IoError Unit × State × List Ev) :=
  match get_action_for_addr c env local_addr addr with
  | (.error e, evs) => some (.error e, s, evs)
  | (.ok action, evs) =>
      match action with
      | Action.Reject => some (.ok (), s, evs)
      | Action.Direct =>
          some (env.direct_udp, s, evs ++ [Ev.dispatchDirectUdp addr])
      | Action.Proxy =>
          some (env.proxy_udp, s, evs ++ [Ev.dispatchProxyUdp addr])
      | Action.Probe => none

/-- The ids of the `register` events of a trace. -/
def registerIds (evs : List Ev) : List Nat :=
  evs.filterMap fun e =>
    match e with
    | Ev.register i _ => some i
    | _ => none

/-- The stored records of the `register` events of a trace. -/
def registeredConns (evs : List Ev) : List Connection :=
  evs.filterMap fun e =>
    match e with
    | Ev.register _ conn => some conn
    | _ => none

/-- The `deregister` events of a trace. -/
def deregisters (evs : List Ev) : List (Nat × Option Connection) :=
  evs.filterMap fun e =>
    match e with
    | Ev.deregister i r => some (i, r)
    | _ => none

/-- The lifecycle lines of a trace. -/
def lifecycles (evs : List Ev) : List LifecycleLine :=
  evs.filterMap fun e =>
    match e with
    | Ev.lifecycle line => some line
    | _ => none

/-- The probe calls of a trace. -/
def probeCalls (evs : List Ev) : List (Address × Bool) :=
  evs.filterMap fun e =>
    match e with
    | Ev.probeCall a b => some (a, b)
    | _ => none

/-- The failover-rotation log events of a trace. -/
def failoverLogs (evs : List Ev) : List (String × String) :=
  evs.filterMap fun e =>
    match e with
    | Ev.logFailover a b => some (a, b)
    | _ => none

/-- Whether an event is a backend dispatch (any of the four handler calls). -/
def isDispatch (e : Ev) : Bool :=
  match e with
  | Ev.dispatchDirectTcp _ => true
  | Ev.dispatchProxyTcp _ => true
  | Ev.dispatchDirectUdp _ => true
  | Ev.dispatchProxyUdp _ => true
  | _ => false

/-- One TCP request: the per-run oracle behaviour plus the two addresses. -/
structure TcpReq where
  env : Env
  remote_addr : SockAddr
  addr : Address

/-- Run a sequence of TCP flows through one client, threading the shared
state, and collect the connection ids issued at their registrations (a run
that panics stops the sequence). -/
def run_tcp_list (c : RuledClient) (s : State) (reqs : List TcpReq) :
    State × List Nat :=
  match reqs with
  | [] => (s, [])
  | r :: rest =>
      match handle_tcp c r.env s r.remote_addr r.addr with
      | none => (s, [])
      | some (_, s2, evs) =>
          let tail := run_tcp_list c s2 rest
          (tail.1, registerIds evs ++ tail.2)

/-- Events that the action resolver may emit. -/
def resolveEv (e : Ev) : Bool :=
  match e with
  | Ev.osQuery _ _ => true
  | Ev.ruleLookup _ => true
  | Ev.probeCall _ _ => true
  | Ev.logRuleAction _ _ => true
  | Ev.logProbeAction _ _ => true
  | _ => false

theorem resolve_action_ne_probe (c : RuledClient) (env : Env) (addr : Address)
    (pp : Bool) : (resolve_action c env addr pp).1 ≠ Action.Probe := by
  unfold resolve_action
  dsimp only
  split_ifs <;> simp_all

theorem get_action_ne_probe (c : RuledClient) (env : Env) (ra : SockAddr)
    (addr : Address) (a : Action) (evs : List Ev)
    (h : get_action_for_addr c env ra addr = (.ok a, evs)) :
    a ≠ Action.Probe := by
  unfold get_action_for_addr at h
  split at h
  · simp at h
  · rename_i pp evs2 heq
    simp only [Prod.mk.injEq, Except.ok.injEq] at h
    exact h.1 ▸ resolve_action_ne_probe c env addr pp

theorem pass_proxy_check_trace (c : RuledClient) (env : Env) (ra : SockAddr) :
    ((pass_proxy_check c env ra).2).all resolveEv = true := by
  unfold pass_proxy_check
  split
  · simp
  · split <;> simp [resolveEv]

theorem resolve_action_trace (c : RuledClient) (env : Env) (addr : Address)
    (pp : Bool) : ((resolve_action c env addr pp).2).all resolveEv = true := by
  unfold resolve_action
  dsimp only
  split_ifs <;> simp [resolveEv]

theorem get_action_trace (c : RuledClient) (env : Env) (ra : SockAddr)
    (addr : Address) :
    ((get_action_for_addr c env ra addr).2).all resolveEv = true := by
  unfold get_action_for_addr
  split
  · rename_i e evs heq
    have h1 := pass_proxy_check_trace c env ra
    rw [heq] at h1
    exact h1
  · rename_i pp evs heq
    have h1 := pass_proxy_check_trace c env ra
    rw [heq] at h1
    have h2 := resolve_action_trace c env addr pp
    simp [List.all_append, h1, h2]

theorem filterMap_eq_nil_of_resolve {β : Type} (f : Ev → Option β)
    (evs : List Ev) (hf : ∀ e, resolveEv e = true → f e = none)
    (h : evs.all resolveEv = true) : evs.filterMap f = [] := by
  induction evs with
  | nil => rfl
  | cons e rest ih =>
      simp only [List.all_cons, Bool.and_eq_true] at h
      rw [List.filterMap_cons, hf e h.1, ih h.2]

theorem filter_eq_nil_of_resolve (p : Ev → Bool) (evs : List Ev)
    (hp : ∀ e, resolveEv e = true → p e = false)
    (h : evs.all resolveEv = true) : evs.filter p = [] := by
  induction evs with
  | nil => rfl
  | cons e rest ih =>
      simp only [List.all_cons, Bool.and_eq_true] at h
      rw [List.filter_cons, hp e h.1, ih h.2]
      simp

theorem resolve_trace_extractors (evs : List Ev)
    (h : evs.all resolveEv = true) :
    registerIds evs = [] ∧ registeredConns evs = [] ∧ deregisters evs = [] ∧
    lifecycles evs = [] ∧ failoverLogs evs = [] ∧
    evs.filter isDispatch = [] := by
  refine ⟨?_, ?_, ?_, ?_, ?_, ?_⟩
  · exact filterMap_eq_nil_of_resolve _ evs
      (by intro e he; cases e <;> simp [resolveEv] at he ⊢) h
  · exact filterMap_eq_nil_of_resolve _ evs
      (by intro e he; cases e <;> simp [resolveEv] at he ⊢) h
  · exact filterMap_eq_nil_of_resolve _ evs
      (by intro e he; cases e <;> simp [resolveEv] at he ⊢) h
  · exact filterMap_eq_nil_of_resolve _ evs
      (by intro e he; cases e <;> simp [resolveEv] at he ⊢) h
  · exact filterMap_eq_nil_of_resolve _ evs
      (by intro e he; cases e <;> simp [resolveEv] at he ⊢) h
  · exact filter_eq_nil_of_resolve _ evs
      (by intro e he; cases e <;> simp [resolveEv, isDispatch] at he ⊢) h

theorem regRemove_fst (l : List (Nat × Connection)) (k : Nat) :
    (regRemove l k).1 = regLookup l k := rfl

theorem regLookup_regInsert_self (l : List (Nat × Connection)) (k : Nat)
    (v : Connection) : regLookup (regInsert l k v) k = some v := by
  simp [regLookup, regInsert]

theorem regLookup_filter_ne (l : List (Nat × Connection)) (k : Nat) :
    regLookup (l.filter fun p => !(p.1 == k)) k = none := by
  induction l with
  | nil => rfl
  | cons p rest ih =>
      rw [List.filter_cons]
      cases hpk : (p.1 == k) with
      | true => simp [ih]
      | false => simp [regLookup, List.find?_cons, hpk, ih]

theorem regRemove_regInsert_self (l : List (Nat × Connection)) (k : Nat)
    (v : Connection) :
    regRemove (regInsert l k v) k =
      (some v, l.filter fun p => !(p.1 == k)) := by
  unfold regRemove regInsert
  refine Prod.ext ?_ ?_
  · simp
  · simp [List.filter_filter]

theorem old_conf_index_lt (conf : Config) (name : String)
    (h : 0 < conf.server_configs.length) :
    ((conf.server_configs.findIdx? fun s => s.name == name).getD 0)
      < conf.server_configs.length := by
  cases hf : conf.server_configs.findIdx? fun s => s.name == name with
  | none => simpa using h
  | some j =>
      have hj := (List.findIdx?_eq_some_iff_findIdx_eq.mp hf).1
      simpa using hj

theorem failover_check_noop (conf : Config) (ss : SSClientState)
    (h : ¬ ss.connect_errors > conf.max_connect_errors) :
    failover_check conf ss = some (ss, []) := by
  unfold failover_check
  simp [h]

theorem failover_check_rotates (conf : Config) (ss : SSClientState)
    (h : ss.connect_errors > conf.max_connect_errors)
    (hne : conf.server_configs ≠ []) :
    ∃ old_conf new_conf,
      conf.server_configs.get?
        ((conf.server_configs.findIdx? fun s => s.name == ss.active.name).getD 0)
        = some old_conf ∧
      conf.server_configs.get?
        ((((conf.server_configs.findIdx? fun s => s.name == ss.active.name).getD 0)
            + 1) % conf.server_configs.length) = some new_conf ∧
      failover_check conf ss =
        some ({ ss with active := new_conf },
          [Ev.logFailover old_conf.name new_conf.name]) := by
  have hlen : 0 < conf.server_configs.length := List.length_pos.mpr hne
  have hold := old_conf_index_lt conf ss.active.name hlen
  have hnext : ((((conf.server_configs.findIdx? fun s => s.name == ss.active.name).getD 0)
      + 1) % conf.server_configs.length) < conf.server_configs.length :=
    Nat.mod_lt _ hlen
  obtain ⟨old_conf, holdc⟩ : ∃ x, conf.server_configs.get?
      ((conf.server_configs.findIdx? fun s => s.name == ss.active.name).getD 0)
      = some x := by
    rw [List.get?_eq_get hold]
    exact ⟨_, rfl⟩
  obtain ⟨new_conf, hnewc⟩ : ∃ x, conf.server_configs.get?
      ((((conf.server_configs.findIdx? fun s => s.name == ss.active.name).getD 0)
          + 1) % conf.server_configs.length) = some x := by
    rw [List.get?_eq_get hnext]
    exact ⟨_, rfl⟩
  refine ⟨old_conf, new_conf, holdc, hnewc, ?_⟩
  unfold failover_check
  rw [if_pos h, if_neg (Nat.pos_iff_ne_zero.mp hlen)]
  simp only [holdc, hnewc]

theorem failover_check_isSome (conf : Config) (ss : SSClientState)
    (hne : conf.server_configs ≠ []) :
    (failover_check conf ss).isSome = true := by
  by_cases h : ss.connect_errors > conf.max_connect_errors
  · obtain ⟨o, n, -, -, heq⟩ := failover_check_rotates conf ss h hne
    rw [heq]
    rfl
  · rw [failover_check_noop conf ss h]
    rfl

theorem tcp_register_eval (s : State) (addr : Address) (a : Action) (t : Int) :
    tcp_register s addr a t =
      (s.counter, ⟨addr, t, 0, 0, a⟩,
        { s with counter := (s.counter + 1) % 2 ^ 64,
                 connections := regInsert s.connections s.counter
                   ⟨addr, t, 0, 0, a⟩ }) := rfl

theorem tcp_dispatch_reject (c : RuledClient) (env : Env) (s : State)
    (addr : Address) :
    tcp_dispatch c env s addr Action.Reject = some (.ok (), s, []) := rfl

theorem tcp_dispatch_direct (c : RuledClient) (env : Env) (s : State)
    (addr : Address) :
    tcp_dispatch c env s addr Action.Direct =
      some (env.direct_tcp, s, [Ev.dispatchDirectTcp addr]) := rfl

theorem tcp_dispatch_probe (c : RuledClient) (env : Env) (s : State)
    (addr : Address) :
    tcp_dispatch c env s addr Action.Probe = none := rfl

theorem tcp_dispatch_proxy (c : RuledClient) (env : Env) (s : State)
    (addr : Address) (ss2 : SSClientState) (fevs : List Ev)
    (hf : failover_check c.conf s.ss = some (ss2, fevs)) :
    tcp_dispatch c env s addr Action.Proxy =
      some (env.proxy_tcp, { s with ss := ss2 },
        fevs ++ [Ev.dispatchProxyTcp addr]) := by
  unfold tcp_dispatch
  rw [hf]

theorem tcp_finish_char (s : State) (idx : Nat) (conn : Connection)
    (ret : Except IoError Unit) (t : Int)
    (h : regLookup s.connections idx = some conn) :
    tcp_finish s idx ret t =
      ({ s with connections := s.connections.filter fun p => !(p.1 == idx) },
        [Ev.deregister idx (some conn),
          Ev.lifecycle (lineFor idx conn ret t)]) := by
  unfold tcp_finish
  simp only [regRemove, regLookup] at h ⊢
  simp only [h]

theorem handle_tcp_of_resolve_error (c : RuledClient) (env : Env) (s : State)
    (ra : SockAddr) (addr : Address) (e : IoError) (evs0 : List Ev)
    (h : get_action_for_addr c env ra addr = (.error e, evs0)) :
    handle_tcp c env s ra addr = some (.error e, s, evs0) := by
  unfold handle_tcp
  rw [h]

theorem handle_tcp_of_resolve_ok (c : RuledClient) (env : Env) (s : State)
    (ra : SockAddr) (addr : Address) (a : Action) (evs0 : List Ev)
    (hres : get_action_for_addr c env ra addr = (.ok a, evs0)) :
    handle_tcp c env s ra addr =
      match tcp_dispatch c env (tcp_register s addr a env.time_register).2.2
          addr a with
      | none => none
      | some (ret, s2, dvs) =>
          some (ret, (tcp_finish s2 s.counter ret env.time_close).1,
            evs0 ++ [Ev.register s.counter ⟨addr, env.time_register, 0, 0, a⟩]
              ++ dvs ++ (tcp_finish s2 s.counter ret env.time_close).2) := by
  unfold handle_tcp
  rw [hres]
  rfl

theorem failover_check_empty (conf : Config) (ss : SSClientState)
    (hgt : ss.connect_errors > conf.max_connect_errors)
    (hlen : conf.server_configs = []) : failover_check conf ss = none := by
  unfold failover_check
  rw [if_pos hgt, if_pos (by rw [hlen]; rfl)]

theorem failover_check_evs (conf : Config) (ss : SSClientState)
    (ss2 : SSClientState) (fevs : List Ev)
    (h : failover_check conf ss = some (ss2, fevs)) :
    fevs = [] ∨ ∃ a b, fevs = [Ev.logFailover a b] := by
  by_cases hgt : ss.connect_errors > conf.max_connect_errors
  · by_cases hcfg : conf.server_configs = []
    · rw [failover_check_empty conf ss hgt hcfg] at h
      exact absurd h (by simp)
    · obtain ⟨o, n, -, -, heq⟩ := failover_check_rotates conf ss hgt hcfg
      rw [heq] at h
      simp only [Option.some.injEq, Prod.mk.injEq] at h
      exact Or.inr ⟨_, _, h.2.symm⟩
  · rw [failover_check_noop conf ss hgt] at h
    simp only [Option.some.injEq, Prod.mk.injEq] at h
    exact Or.inl h.2.symm

theorem tcp_dispatch_state (c : RuledClient) (env : Env) (s : State)
    (addr : Address) (a : Action) (ret : Except IoError Unit) (s2 : State)
    (dvs : List Ev)
    (h : tcp_dispatch c env s addr a = some (ret, s2, dvs)) :
    s2.connections = s.connections ∧ s2.counter = s.counter := by
  cases a <;> unfold tcp_dispatch at h
  · simp only [Option.some.injEq, Prod.mk.injEq] at h
    rw [← h.2.1]
    exact ⟨rfl, rfl⟩
  · simp only [Option.some.injEq, Prod.mk.injEq] at h
    rw [← h.2.1]
    exact ⟨rfl, rfl⟩
  · rcases hf : failover_check c.conf s.ss with - | ⟨ss2, fevs⟩
    · rw [hf] at h
      exact absurd h (by simp)
    · rw [hf] at h
      simp only [Option.some.injEq, Prod.mk.injEq] at h
      rw [← h.2.1]
      exact ⟨rfl, rfl⟩
  · exact absurd h (by simp)

theorem tcp_dispatch_evs (c : RuledClient) (env : Env) (s : State)
    (addr : Address) (a : Action) (ret : Except IoError Unit) (s2 : State)
    (dvs : List Ev)
    (h : tcp_dispatch c env s addr a = some (ret, s2, dvs)) :
    registeredConns dvs = [] ∧ registerIds dvs = [] ∧ deregisters dvs = [] ∧
      lifecycles dvs = [] := by
  cases a <;> unfold tcp_dispatch at h
  · simp only [Option.some.injEq, Prod.mk.injEq] at h
    rw [← h.2.2]
    exact ⟨rfl, rfl, rfl, rfl⟩
  · simp only [Option.some.injEq, Prod.mk.injEq] at h
    rw [← h.2.2]
    exact ⟨rfl, rfl, rfl, rfl⟩
  · rcases hf : failover_check c.conf s.ss with - | ⟨ss2, fevs⟩
    · rw [hf] at h
      exact absurd h (by simp)
    · rw [hf] at h
      simp only [Option.some.injEq, Prod.mk.injEq] at h
      rw [← h.2.2]
      rcases failover_check_evs c.conf s.ss ss2 fevs hf with hf0 | ⟨x, y, hf0⟩ <;>
        subst hf0 <;>
        simp [registeredConns, registerIds, deregisters, lifecycles]
  · exact absurd h (by simp)

theorem tcp_dispatch_ret (c : RuledClient) (env : Env) (s : State)
    (addr : Address) (a : Action) (ret : Except IoError Unit) (s2 : State)
    (dvs : List Ev)
    (h : tcp_dispatch c env s addr a = some (ret, s2, dvs)) :
    (a = Action.Reject → ret = .ok ()) ∧
    (a = Action.Direct → ret = env.direct_tcp) ∧
    (a = Action.Proxy → ret = env.proxy_tcp) := by
  cases a <;> unfold tcp_dispatch at h
  · simp only [Option.some.injEq, Prod.mk.injEq] at h
    exact ⟨fun _ => h.1.symm, by simp, by simp⟩
  · simp only [Option.some.injEq, Prod.mk.injEq] at h
    exact ⟨by simp, fun _ => h.1.symm, by simp⟩
  · rcases hf : failover_check c.conf s.ss with - | ⟨ss2, fevs⟩
    · rw [hf] at h
      exact absurd h (by simp)
    · rw [hf] at h
      simp only [Option.some.injEq, Prod.mk.injEq] at h
      exact ⟨by simp, by simp, fun _ => h.1.symm⟩
  · exact absurd h (by simp)

theorem handle_tcp_some_shape (c : RuledClient) (env : Env) (s : State)
    (ra : SockAddr) (addr : Address) (a : Action) (evs0 : List Ev)
    (ret : Except IoError Unit) (s3 : State) (evs : List Ev)
    (hres : get_action_for_addr c env ra addr = (.ok a, evs0))
    (h : handle_tcp c env s ra addr = some (ret, s3, evs)) :
    ∃ s2 dvs,
      tcp_dispatch c env (tcp_register s addr a env.time_register).2.2 addr a
          = some (ret, s2, dvs) ∧
      s3 = (tcp_finish s2 s.counter ret env.time_close).1 ∧
      evs = evs0 ++ [Ev.register s.counter ⟨addr, env.time_register, 0, 0, a⟩]
              ++ dvs ++ (tcp_finish s2 s.counter ret env.time_close).2 := by
  rw [handle_tcp_of_resolve_ok c env s ra addr a evs0 hres] at h
  rcases hd : tcp_dispatch c env (tcp_register s addr a env.time_register).2.2
      addr a with - | ⟨ret2, s2, dvs⟩
  · rw [hd] at h
    exact absurd h (by simp)
  · rw [hd] at h
    simp only [Option.some.injEq, Prod.mk.injEq] at h
    obtain ⟨h1, h2, h3⟩ := h
    subst h1
    subst h2
    subst h3
    exact ⟨s2, dvs, rfl, rfl, rfl⟩

theorem resolve_action_pass (c : RuledClient) (env : Env) (addr : Address) :
    resolve_action c env addr true =
      (Action.Direct, [Ev.logRuleAction addr Action.Direct]) := rfl

theorem resolve_action_probe_rule (c : RuledClient) (env : Env)
    (addr : Address)
    (h : (c.rule.action_for_domain (domainOf addr)).getD c.rule.default_action
      = Action.Probe) :
    resolve_action c env addr false =
      ((if env.probe_connectivity addr = true then Action.Direct
          else Action.Proxy),
        [Ev.ruleLookup (domainOf addr),
          Ev.probeCall addr (env.probe_connectivity addr),
          Ev.logProbeAction addr
            (if env.probe_connectivity addr = true then Action.Direct
              else Action.Proxy)]) := by
  unfold resolve_action
  simp [h]

theorem pass_proxy_check_shape (c : RuledClient) (env : Env) (ra : SockAddr) :
    (pass_proxy_check c env ra).2 = [] ∨
      ∃ u, (pass_proxy_check c env ra).2 = [Ev.osQuery ra u] := by
  unfold pass_proxy_check
  split
  · exact Or.inl rfl
  · split <;> exact Or.inr ⟨_, rfl⟩

theorem probeCalls_pass_check (c : RuledClient) (env : Env) (ra : SockAddr) :
    probeCalls (pass_proxy_check c env ra).2 = [] := by
  rcases pass_proxy_check_shape c env ra with h | ⟨u, h⟩ <;> rw [h] <;> rfl

/-! Concrete fixtures used by witnesses and counterexamples. -/

/-- An OS oracle reporting no sockets for any uid. -/
def osNone : OsEnv := ⟨fun _ => .ok []⟩

/-- A rule set with no per-domain rules and the given default action. -/
def rulesDefault (d : Action) : ProxyRules :=
  { action_for_domain := fun _ => none, default_action := d }

/-- A benign environment: probes succeed, all backends succeed. -/
def envBase : Env :=
  { os := osNone, probe_connectivity := fun _ => true,
    direct_tcp := .ok (), proxy_tcp := .ok (),
    direct_udp := .ok (), proxy_udp := .ok (),
    time_register := 100, time_close := 107 }

/-- Three configured proxy backends named A, B, C. -/
def confABC : Config :=
  { server_configs := [⟨"A"⟩, ⟨"B"⟩, ⟨"C"⟩], max_connect_errors := 5 }

/-- A sample destination. -/
def addrEx : Address := .DomainNameAddress "example.com" 443

/-- A client whose rule set defaults to `Probe`, no UID filter. -/
def cProbe : RuledClient := ⟨confABC, rulesDefault Action.Probe, none⟩

/-- A client with a UID filter configured (uid 33). -/
def cUid : RuledClient := ⟨confABC, rulesDefault Action.Proxy, some 33⟩

/-- An OS oracle whose query fails. -/
def osErr : OsEnv := ⟨fun _ => .error ⟨"os query failed"⟩⟩

/-- `envBase` with the failing OS oracle. -/
def envErr : Env := { envBase with os := osErr }

theorem probeCalls_append (l1 l2 : List Ev) :
    probeCalls (l1 ++ l2) = probeCalls l1 ++ probeCalls l2 := by
  simp [probeCalls]

theorem registeredConns_append (l1 l2 : List Ev) :
    registeredConns (l1 ++ l2) =
      registeredConns l1 ++ registeredConns l2 := by
  simp [registeredConns]

theorem registerIds_append (l1 l2 : List Ev) :
    registerIds (l1 ++ l2) = registerIds l1 ++ registerIds l2 := by
  simp [registerIds]

theorem deregisters_append (l1 l2 : List Ev) :
    deregisters (l1 ++ l2) = deregisters l1 ++ deregisters l2 := by
  simp [deregisters]

theorem lifecycles_append (l1 l2 : List Ev) :
    lifecycles (l1 ++ l2) = lifecycles l1 ++ lifecycles l2 := by
  simp [lifecycles]

theorem failoverLogs_append (l1 l2 : List Ev) :
    failoverLogs (l1 ++ l2) = failoverLogs l1 ++ failoverLogs l2 := by
  simp [failoverLogs]

theorem tcp_finish_no_register (s : State) (idx : Nat)
    (ret : Except IoError Unit) (t : Int) :
    registeredConns (tcp_finish s idx ret t).2 = [] ∧
      registerIds (tcp_finish s idx ret t).2 = [] := by
  unfold tcp_finish
  dsimp only
  cases hrem : (regRemove s.connections idx).1 <;>
    simp [registeredConns, registerIds]

example :
    (handle_tcp ⟨confABC, rulesDefault Action.Proxy, none⟩ envBase
        ⟨0, [], ⟨⟨"C"⟩, 6⟩⟩ "10.0.0.1:443" addrEx).map
      (fun r => r.2.1.ss.active.name) = some "A" := by rfl

/-- C2: the action handed to the dispatcher is never `Probe`: whenever the
UID filter passes the flow through and the rule lookup (or the default
action on no match) yields `Probe`, the connectivity prober is consulted
exactly once, a successful probe resolves to `Direct` and a failed probe to
`Proxy`, with no third outcome. -/
theorem claim_C2 (c : RuledClient) (env : Env) (ra : SockAddr)
    (addr : Address) :
    (∀ a evs, get_action_for_addr c env ra addr = (.ok a, evs) →
      a ≠ Action.Probe)
    ∧ (∀ evs1, pass_proxy_check c env ra = (.ok false, evs1) →
        (c.rule.action_for_domain (domainOf addr)).getD c.rule.default_action
            = Action.Probe →
        probeCalls (get_action_for_addr c env ra addr).2
            = [(addr, env.probe_connectivity addr)] ∧
          (get_action_for_addr c env ra addr).1
            = .ok (if env.probe_connectivity addr = true then Action.Direct
                else Action.Proxy)) := by
  constructor
  · exact fun a evs h => get_action_ne_probe c env ra addr a evs h
  · intro evs1 hpass hrule
    have h1 : probeCalls evs1 = [] := by
      have h2 := probeCalls_pass_check c env ra
      rw [hpass] at h2
      exact h2
    unfold get_action_for_addr
    rw [hpass]
    dsimp only
    rw [resolve_action_probe_rule c env addr hrule]
    refine ⟨?_, rfl⟩
    rw [probeCalls_append, h1]
    rfl

/-- C2 witness: with no UID filter and default action `Probe`, a successful
probe yields exactly one probe call and the final action `Direct`. -/
theorem claim_C2_witness :
    probeCalls (get_action_for_addr cProbe envBase "ra" addrEx).2
        = [(addrEx, envBase.probe_connectivity addrEx)] ∧
      (get_action_for_addr cProbe envBase "ra" addrEx).1
        = .ok (if envBase.probe_connectivity addrEx = true then Action.Direct
            else Action.Proxy) :=
  (claim_C2 cProbe envBase "ra" addrEx).2 [] rfl rfl

/-- C6: with a configured target UID, a flow whose remote address does not
belong to that UID resolves to `Direct` regardless of the rule set, without
consulting the rule set or the prober (the trace holds only the OS query
and the decision log); an OS ownership-query failure is propagated as the
I/O error. -/
theorem claim_C6 (c : RuledClient) (env : Env) (ra : SockAddr)
    (addr : Address) (uid : Nat) (h : c.proxy_uid = some uid) :
    (socket_addr_belong_to_user env.os ra uid = .ok false →
      get_action_for_addr c env ra addr =
        (.ok Action.Direct,
          [Ev.osQuery ra uid, Ev.logRuleAction addr Action.Direct]))
    ∧ (∀ e, socket_addr_belong_to_user env.os ra uid = .error e →
        get_action_for_addr c env ra addr =
          (.error e, [Ev.osQuery ra uid])) := by
  have hp : pass_proxy_check c env ra =
      match socket_addr_belong_to_user env.os ra uid with
      | .error e => (.error e, [Ev.osQuery ra uid])
      | .ok belongs => (.ok (!belongs), [Ev.osQuery ra uid]) := by
    unfold pass_proxy_check
    rw [h]
  constructor
  · intro hok
    unfold get_action_for_addr
    rw [hp, hok]
    rfl
  · intro e herr
    unfold get_action_for_addr
    rw [hp, herr]

/-- C6 witness: uid 33 configured; an OS oracle reporting no sockets forces
`Direct`, and a failing OS oracle propagates its error. -/
theorem claim_C6_witness :
    (get_action_for_addr cUid envBase "ra" addrEx =
      (.ok Action.Direct,
        [Ev.osQuery "ra" 33, Ev.logRuleAction addrEx Action.Direct]))
    ∧ (get_action_for_addr cUid envErr "ra" addrEx =
        (.error ⟨"os query failed"⟩, [Ev.osQuery "ra" 33])) :=
  ⟨(claim_C6 cUid envBase "ra" addrEx 33 rfl).1 rfl,
    (claim_C6 cUid envErr "ra" addrEx 33 rfl).2 ⟨"os query failed"⟩ rfl⟩

example :
    handle_tcp ⟨confABC, rulesDefault Action.Reject, none⟩ envBase
        ⟨0, [], ⟨⟨"A"⟩, 0⟩⟩ "10.0.0.1:443" addrEx =
      some (.ok (), ⟨1, [], ⟨⟨"A"⟩, 0⟩⟩,
        [Ev.ruleLookup "example.com",
         Ev.logRuleAction addrEx Action.Reject,
         Ev.register 0 ⟨addrEx, 100, 0, 0, Action.Reject⟩,
         Ev.deregister 0 (some ⟨addrEx, 100, 0, 0, Action.Reject⟩),
         Ev.lifecycle ⟨false, none, 0, 100, 7, addrEx, Action.Reject⟩]) := by rfl

example :
    handle_udp ⟨confABC, rulesDefault Action.Proxy, none⟩ envBase
        ⟨0, [], ⟨⟨"A"⟩, 6⟩⟩ "10.0.0.1:443" addrEx =
      some (.ok (), ⟨0, [], ⟨⟨"A"⟩, 6⟩⟩,
        [Ev.ruleLookup "example.com",
         Ev.logRuleAction addrEx Action.Proxy,
         Ev.dispatchProxyUdp addrEx]) := by rfl

/-- A client with no UID filter whose rule set defaults to `Proxy`. -/
def cProxy : RuledClient := ⟨confABC, rulesDefault Action.Proxy, none⟩

/-- State with active backend C (index 2) and 6 consecutive errors
(threshold is 5). -/
def sC6 : State := ⟨0, [], ⟨⟨"C"⟩, 6⟩⟩

/-- The run output of `handle_tcp cProxy envBase sC6`: backend rotated from
C (index 2) to A (index 0). -/
def outC1 : Except IoError Unit × State × List Ev :=
  (.ok (), ⟨1, [], ⟨⟨"A"⟩, 6⟩⟩,
    [Ev.ruleLookup "example.com", Ev.logRuleAction addrEx Action.Proxy,
     Ev.register 0 ⟨addrEx, 100, 0, 0, Action.Proxy⟩,
     Ev.logFailover "C" "A", Ev.dispatchProxyTcp addrEx,
     Ev.deregister 0 (some ⟨addrEx, 100, 0, 0, Action.Proxy⟩),
     Ev.lifecycle ⟨false, none, 0, 100, 7, addrEx, Action.Proxy⟩])

/-- C1: on a `Proxy`-classified TCP connection, when the proxy backend's
consecutive-error count read at dispatch exceeds the configured maximum,
the active backend after the run is the configured entry at position
(current position + 1) modulo the number of configured backends, the
current position being the index of the backend whose name equals the
active backend's name. -/
theorem claim_C1 (c : RuledClient) (env : Env) (s : State) (ra : SockAddr)
    (addr : Address) (ret : Except IoError Unit) (s3 : State) (evs : List Ev)
    (evs0 : List Ev)
    (hres : get_action_for_addr c env ra addr = (.ok Action.Proxy, evs0))
    (h : handle_tcp c env s ra addr = some (ret, s3, evs))
    (he : s.ss.connect_errors > c.conf.max_connect_errors) :
    c.conf.server_configs.get?
        ((((c.conf.server_configs.findIdx?
              fun sc => sc.name == s.ss.active.name).getD 0) + 1)
          % c.conf.server_configs.length) = some s3.ss.active := by
  obtain ⟨s2, dvs, hd, hs3, hevs⟩ :=
    handle_tcp_some_shape c env s ra addr Action.Proxy evs0 ret s3 evs hres h
  by_cases hcfg : c.conf.server_configs = []
  · exfalso
    have hf := failover_check_empty c.conf s.ss he hcfg
    unfold tcp_dispatch at hd
    simp only [tcp_register_eval] at hd
    rw [hf] at hd
    exact absurd hd (by simp)
  · obtain ⟨old_conf, new_conf, holdc, hnewc, heq⟩ :=
      failover_check_rotates c.conf s.ss he hcfg
    unfold tcp_dispatch at hd
    simp only [tcp_register_eval] at hd
    rw [heq] at hd
    simp only [Option.some.injEq, Prod.mk.injEq] at hd
    have hs2ss : s2.ss = { s.ss with active := new_conf } := by
      rw [← hd.2.1]
    rw [hs3]
    have hfin : (tcp_finish s2 s.counter ret env.time_close).1.ss = s2.ss :=
      rfl
    rw [hfin, hs2ss]
    simpa using hnewc

/-- C1 witness: 3 backends A, B, C, active C (index 2), 6 errors with
threshold 5: the next index is (2 + 1) % 3 = 0 and the active backend
after the run is A. -/
theorem claim_C1_witness :
    confABC.server_configs.get?
        ((((confABC.server_configs.findIdx?
              fun sc => sc.name == sC6.ss.active.name).getD 0) + 1)
          % confABC.server_configs.length) = some outC1.2.1.ss.active :=
  claim_C1 cProxy envBase sC6 "ra" addrEx outC1.1 outC1.2.1 outC1.2.2
    [Ev.ruleLookup "example.com", Ev.logRuleAction addrEx Action.Proxy]
    rfl rfl (by decide)

/-- State with an active backend name Z unknown among A, B, C, and 6
consecutive errors. -/
def ssZ : SSClientState := ⟨⟨"Z"⟩, 6⟩

/-- C8: with a non-empty configured backend list, the request-time failover
computation never panics: the position lookup defaults to 0 when the
active backend's name is not found, the modulo wrap keeps the next index
in bounds, the list access at that index succeeds, and an unknown current
name yields next index 1 modulo the list length. -/
theorem claim_C8 (conf : Config) (ss : SSClientState)
    (hne : conf.server_configs ≠ []) :
    (failover_check conf ss).isSome = true
    ∧ ((((conf.server_configs.findIdx?
            fun sc => sc.name == ss.active.name).getD 0) + 1)
        % conf.server_configs.length) < conf.server_configs.length
    ∧ (conf.server_configs.get?
        ((((conf.server_configs.findIdx?
              fun sc => sc.name == ss.active.name).getD 0) + 1)
          % conf.server_configs.length)).isSome = true
    ∧ ((conf.server_configs.findIdx?
          fun sc => sc.name == ss.active.name) = none →
        ((((conf.server_configs.findIdx?
              fun sc => sc.name == ss.active.name).getD 0) + 1)
          % conf.server_configs.length) = 1 % conf.server_configs.length) := by
  have hlen : 0 < conf.server_configs.length := List.length_pos.mpr hne
  have hnext : ((((conf.server_configs.findIdx?
          fun sc => sc.name == ss.active.name).getD 0) + 1)
        % conf.server_configs.length) < conf.server_configs.length :=
    Nat.mod_lt _ hlen
  refine ⟨failover_check_isSome conf ss hne, hnext, ?_, ?_⟩
  · rw [List.get?_eq_get hnext]
    rfl
  · intro hnone
    rw [hnone]
    rfl

/-- C8 witness: 3 backends A, B, C and unknown active name Z: the failover
check returns a value, and the next index is 1 % 3 = 1. -/
theorem claim_C8_witness :
    (failover_check confABC ssZ).isSome = true
    ∧ ((((confABC.server_configs.findIdx?
            fun sc => sc.name == ssZ.active.name).getD 0) + 1)
        % confABC.server_configs.length) = 1 % confABC.server_configs.length :=
  ⟨(claim_C8 confABC ssZ (by decide)).1,
    (claim_C8 confABC ssZ (by decide)).2.2.2 (by decide)⟩

/-- A client with no UID filter whose rule set defaults to `Reject`. -/
def cReject : RuledClient := ⟨confABC, rulesDefault Action.Reject, none⟩

/-- State with active backend A and no errors. -/
def sA0 : State := ⟨0, [], ⟨⟨"A"⟩, 0⟩⟩

/-- C3 counterexample: a `Reject`-classified TCP flow is registered with the
stored action `Reject`, so the stored action of a registered connection is
not limited to `Direct`/`Proxy`. -/
theorem claim_C3_counterexample :
    (handle_tcp cReject envBase sA0 "ra" addrEx).map
        (fun r => (registeredConns r.2.2).map Connection.action)
      = some [Action.Reject]
    ∧ Action.Reject ≠ Action.Direct ∧ Action.Reject ≠ Action.Proxy :=
  ⟨rfl, by decide, by decide⟩

/-- C3 (amended): the stored action of every connection record registered by
`handle_tcp` is `Direct`, `Proxy` or `Reject`; `Probe` is never persisted. -/
theorem claim_C3 (c : RuledClient) (env : Env) (s : State) (ra : SockAddr)
    (addr : Address) (ret : Except IoError Unit) (s3 : State) (evs : List Ev)
    (h : handle_tcp c env s ra addr = some (ret, s3, evs)) :
    ∀ conn ∈ registeredConns evs,
      conn.action ≠ Action.Probe ∧
        (conn.action = Action.Direct ∨ conn.action = Action.Proxy ∨
          conn.action = Action.Reject) := by
  rcases hres : get_action_for_addr c env ra addr with ⟨r, evs0⟩
  have hall := get_action_trace c env ra addr
  rw [hres] at hall
  rcases r with e | a
  · rw [handle_tcp_of_resolve_error c env s ra addr e evs0 hres] at h
    simp only [Option.some.injEq, Prod.mk.injEq] at h
    have h0 : registeredConns evs = [] := h.2.2 ▸
      (resolve_trace_extractors evs0 hall).2.1
    intro conn hc
    rw [h0] at hc
    exact absurd hc (by simp)
  · obtain ⟨s2, dvs, hd, hs3, hevs⟩ :=
      handle_tcp_some_shape c env s ra addr a evs0 ret s3 evs hres h
    have hre0 := (resolve_trace_extractors evs0 hall).2.1
    have hdv := (tcp_dispatch_evs c env _ addr a ret s2 dvs hd).1
    have hfin := (tcp_finish_no_register s2 s.counter ret env.time_close).1
    have hconns :
        registeredConns evs = [⟨addr, env.time_register, 0, 0, a⟩] := by
      rw [hevs, registeredConns_append, registeredConns_append,
        registeredConns_append, hre0, hdv, hfin]
      rfl
    intro conn hc
    rw [hconns] at hc
    have hconn : conn = ⟨addr, env.time_register, 0, 0, a⟩ := by
      simpa using hc
    subst hconn
    have hna := get_action_ne_probe c env ra addr a evs0 hres
    refine ⟨hna, ?_⟩
    cases a
    · exact Or.inr (Or.inr rfl)
    · exact Or.inl rfl
    · exact Or.inr (Or.inl rfl)
    · exact absurd rfl hna

/-- C3 witness: the amended statement applied to the `Reject` run — the
stored action is `Reject`, which is not `Probe`. -/
theorem claim_C3_witness :
    (⟨addrEx, 100, 0, 0, Action.Reject⟩ : Connection).action ≠ Action.Probe
    ∧ ((⟨addrEx, 100, 0, 0, Action.Reject⟩ : Connection).action
          = Action.Direct
        ∨ (⟨addrEx, 100, 0, 0, Action.Reject⟩ : Connection).action
          = Action.Proxy
        ∨ (⟨addrEx, 100, 0, 0, Action.Reject⟩ : Connection).action
          = Action.Reject) :=
  claim_C3 cReject envBase sA0 "ra" addrEx (.ok ()) ⟨1, [], ⟨⟨"A"⟩, 0⟩⟩
    [Ev.ruleLookup "example.com", Ev.logRuleAction addrEx Action.Reject,
      Ev.register 0 ⟨addrEx, 100, 0, 0, Action.Reject⟩,
      Ev.deregister 0 (some ⟨addrEx, 100, 0, 0, Action.Reject⟩),
      Ev.lifecycle ⟨false, none, 0, 100, 7, addrEx, Action.Reject⟩]
    rfl ⟨addrEx, 100, 0, 0, Action.Reject⟩ (by decide)

/-- State with active backend A and 6 consecutive errors (threshold 5). -/
def sU : State := ⟨0, [], ⟨⟨"A"⟩, 6⟩⟩

/-- C4 counterexample: a UDP flow classified `Proxy` while the error count
(6) exceeds the maximum (5) is handed to the proxy backend with no
failover check: the state (and active backend A) is unchanged and no
rotation is logged. -/
theorem claim_C4_counterexample :
    handle_udp cProxy envBase sU "ra" addrEx =
      some (.ok (), sU,
        [Ev.ruleLookup "example.com", Ev.logRuleAction addrEx Action.Proxy,
          Ev.dispatchProxyUdp addrEx])
    ∧ sU.ss.connect_errors > cProxy.conf.max_connect_errors
    ∧ failoverLogs
        [Ev.ruleLookup "example.com", Ev.logRuleAction addrEx Action.Proxy,
          Ev.dispatchProxyUdp addrEx] = [] :=
  ⟨rfl, by decide, rfl⟩

/-- C4 (amended): every TCP connection classified `Proxy` runs the failover
check, whose trace immediately precedes the proxy dispatch event, and the
post-run backend state is the check's output; the UDP entry point performs
no failover check: it leaves the state (including the active backend)
unchanged and never logs a rotation. -/
theorem claim_C4 :
    (∀ (c : RuledClient) (env : Env) (s : State) (ra : SockAddr)
        (addr : Address) (evs0 : List Ev) (ret : Except IoError Unit)
        (s3 : State) (evs : List Ev),
      get_action_for_addr c env ra addr = (.ok Action.Proxy, evs0) →
      handle_tcp c env s ra addr = some (ret, s3, evs) →
      ∃ ss2 fevs post,
        failover_check c.conf s.ss = some (ss2, fevs) ∧
        s3.ss = ss2 ∧
        evs = evs0 ++ [Ev.register s.counter
                ⟨addr, env.time_register, 0, 0, Action.Proxy⟩]
              ++ (fevs ++ [Ev.dispatchProxyTcp addr]) ++ post)
    ∧ (∀ (c : RuledClient) (env : Env) (s : State) (la : SockAddr)
        (addr : Address) (ret : Except IoError Unit) (s3 : State)
        (evs : List Ev),
      handle_udp c env s la addr = some (ret, s3, evs) →
      s3 = s ∧ failoverLogs evs = []) := by
  constructor
  · intro c env s ra addr evs0 ret s3 evs hres h
    obtain ⟨s2, dvs, hd, hs3, hevs⟩ :=
      handle_tcp_some_shape c env s ra addr Action.Proxy evs0 ret s3 evs
        hres h
    unfold tcp_dispatch at hd
    simp only [tcp_register_eval] at hd
    rcases hf : failover_check c.conf s.ss with - | ⟨ss2, fevs⟩
    · rw [hf] at hd
      exact absurd hd (by simp)
    · rw [hf] at hd
      simp only [Option.some.injEq, Prod.mk.injEq] at hd
      refine ⟨ss2, fevs, (tcp_finish s2 s.counter ret env.time_close).2,
        rfl, ?_, ?_⟩
      · rw [hs3]
        have hfin :
            (tcp_finish s2 s.counter ret env.time_close).1.ss = s2.ss := rfl
        rw [hfin, ← hd.2.1]
      · rw [hevs, ← hd.2.2]
  · intro c env s la addr ret s3 evs h
    rcases hres : get_action_for_addr c env la addr with ⟨r, evs0⟩
    have hall := get_action_trace c env la addr
    rw [hres] at hall
    have hfl0 : failoverLogs evs0 = [] :=
      (resolve_trace_extractors evs0 hall).2.2.2.2.1
    unfold handle_udp at h
    rw [hres] at h
    rcases r with e | a
    · simp only [Option.some.injEq, Prod.mk.injEq] at h
      exact ⟨h.2.1.symm, h.2.2 ▸ hfl0⟩
    · cases a
      · simp only [Option.some.injEq, Prod.mk.injEq] at h
        exact ⟨h.2.1.symm, h.2.2 ▸ hfl0⟩
      · simp only [Option.some.injEq, Prod.mk.injEq] at h
        refine ⟨h.2.1.symm, ?_⟩
        rw [← h.2.2, failoverLogs_append, hfl0]
        rfl
      · simp only [Option.some.injEq, Prod.mk.injEq] at h
        refine ⟨h.2.1.symm, ?_⟩
        rw [← h.2.2, failoverLogs_append, hfl0]
        rfl
      · exact absurd h (by simp)

/-- C4 witness: the UDP half applied to the `Proxy`-classified UDP run —
state unchanged and no rotation logged. -/
theorem claim_C4_witness :
    sU = sU ∧
      failoverLogs
        [Ev.ruleLookup "example.com", Ev.logRuleAction addrEx Action.Proxy,
          Ev.dispatchProxyUdp addrEx] = [] :=
  claim_C4.2 cProxy envBase sU "ra" addrEx (.ok ()) sU
    [Ev.ruleLookup "example.com", Ev.logRuleAction addrEx Action.Proxy,
      Ev.dispatchProxyUdp addrEx] rfl

/-- C10: a UDP flow resolved to `Reject` is answered with success
immediately: the state (registry, counter, backend) is unchanged and the
trace holds only the resolver's own events — no backend dispatch, no
registration or deregistration, no lifecycle line. -/
theorem claim_C10 (c : RuledClient) (env : Env) (s : State) (la : SockAddr)
    (addr : Address) (evs0 : List Ev)
    (hres : get_action_for_addr c env la addr = (.ok Action.Reject, evs0)) :
    handle_udp c env s la addr = some (.ok (), s, evs0)
    ∧ evs0.filter isDispatch = [] ∧ registerIds evs0 = []
    ∧ deregisters evs0 = [] ∧ lifecycles evs0 = [] := by
  have hall := get_action_trace c env la addr
  rw [hres] at hall
  obtain ⟨h1, -, h3, h4, -, h6⟩ := resolve_trace_extractors evs0 hall
  refine ⟨?_, h6, h1, h3, h4⟩
  unfold handle_udp
  rw [hres]

/-- C10 witness: a `Reject`-defaulting client answers a UDP flow with
success, unchanged state and only the two resolver events. -/
theorem claim_C10_witness :
    handle_udp cReject envBase sA0 "ra" addrEx =
      some (.ok (), sA0,
        [Ev.ruleLookup "example.com", Ev.logRuleAction addrEx Action.Reject])
    ∧ ([Ev.ruleLookup "example.com",
        Ev.logRuleAction addrEx Action.Reject].filter isDispatch = [])
    ∧ registerIds
        [Ev.ruleLookup "example.com",
          Ev.logRuleAction addrEx Action.Reject] = []
    ∧ deregisters
        [Ev.ruleLookup "example.com",
          Ev.logRuleAction addrEx Action.Reject] = []
    ∧ lifecycles
        [Ev.ruleLookup "example.com",
          Ev.logRuleAction addrEx Action.Reject] = [] :=
  claim_C10 cReject envBase sA0 "ra" addrEx
    [Ev.ruleLookup "example.com", Ev.logRuleAction addrEx Action.Reject] rfl

/-- C5: for every TCP flow that reaches registration (the resolver returned
an action), the flow is deregistered exactly once whether the backend
succeeded or failed; exactly one lifecycle line is emitted, namely
`lineFor` of the stored record — the "interrupted" variant carrying the
error exactly when the backend failed, with id, connect time, duration,
destination and action in both variants; afterwards the id is absent from
the registry; and the backend's result is returned to the caller
unchanged. -/
theorem claim_C5 (c : RuledClient) (env : Env) (s : State) (ra : SockAddr)
    (addr : Address) (a : Action) (evs0 : List Ev)
    (ret : Except IoError Unit) (s3 : State) (evs : List Ev)
    (hres : get_action_for_addr c env ra addr = (.ok a, evs0))
    (h : handle_tcp c env s ra addr = some (ret, s3, evs)) :
    deregisters evs = [(s.counter, some ⟨addr, env.time_register, 0, 0, a⟩)]
    ∧ lifecycles evs =
        [lineFor s.counter ⟨addr, env.time_register, 0, 0, a⟩ ret
          env.time_close]
    ∧ regLookup s3.connections s.counter = none
    ∧ (a = Action.Reject → ret = .ok ())
    ∧ (a = Action.Direct → ret = env.direct_tcp)
    ∧ (a = Action.Proxy → ret = env.proxy_tcp) := by
  obtain ⟨s2, dvs, hd, hs3, hevs⟩ :=
    handle_tcp_some_shape c env s ra addr a evs0 ret s3 evs hres h
  have hsc := tcp_dispatch_state c env _ addr a ret s2 dvs hd
  have hlook : regLookup s2.connections s.counter
      = some ⟨addr, env.time_register, 0, 0, a⟩ := by
    rw [hsc.1]
    exact regLookup_regInsert_self s.connections s.counter _
  have hfinchar := tcp_finish_char s2 s.counter
    ⟨addr, env.time_register, 0, 0, a⟩ ret env.time_close hlook
  have hfevs : (tcp_finish s2 s.counter ret env.time_close).2 =
      [Ev.deregister s.counter (some ⟨addr, env.time_register, 0, 0, a⟩),
        Ev.lifecycle (lineFor s.counter ⟨addr, env.time_register, 0, 0, a⟩
          ret env.time_close)] := by
    rw [hfinchar]
  have hfst : (tcp_finish s2 s.counter ret env.time_close).1.connections =
      s2.connections.filter fun p => !(p.1 == s.counter) := by
    rw [hfinchar]
  have hall := get_action_trace c env ra addr
  rw [hres] at hall
  obtain ⟨-, -, hd3, hl4, -, -⟩ := resolve_trace_extractors evs0 hall
  obtain ⟨-, -, hdd, hdl⟩ := tcp_dispatch_evs c env _ addr a ret s2 dvs hd
  have hretm := tcp_dispatch_ret c env _ addr a ret s2 dvs hd
  refine ⟨?_, ?_, ?_, hretm.1, hretm.2.1, hretm.2.2⟩
  · rw [hevs, deregisters_append, deregisters_append, deregisters_append,
      hd3, hdd, hfevs]
    rfl
  · rw [hevs, lifecycles_append, lifecycles_append, lifecycles_append,
      hl4, hdl, hfevs]
    rfl
  · rw [hs3, hfst]
    exact regLookup_filter_ne s2.connections s.counter

/-- A client with no UID filter whose rule set defaults to `Direct`. -/
def cDirect : RuledClient := ⟨confABC, rulesDefault Action.Direct, none⟩

/-- `envBase` with a failing direct backend. -/
def envFail : Env := { envBase with direct_tcp := .error ⟨"refused"⟩ }

/-- The trace of `handle_tcp cDirect envFail sA0`: a failed `Direct` flow. -/
def evsC5 : List Ev :=
  [Ev.ruleLookup "example.com", Ev.logRuleAction addrEx Action.Direct,
    Ev.register 0 ⟨addrEx, 100, 0, 0, Action.Direct⟩,
    Ev.dispatchDirectTcp addrEx,
    Ev.deregister 0 (some ⟨addrEx, 100, 0, 0, Action.Direct⟩),
    Ev.lifecycle ⟨true, some ⟨"refused"⟩, 0, 100, 7, addrEx, Action.Direct⟩]

/-- C5 witness: a failing `Direct` flow is deregistered once, logged with
the "interrupted" line carrying the error, absent from the registry
afterwards, and the backend's error is returned unchanged. -/
theorem claim_C5_witness :
    deregisters evsC5 = [(0, some ⟨addrEx, 100, 0, 0, Action.Direct⟩)]
    ∧ lifecycles evsC5 =
        [lineFor 0 ⟨addrEx, 100, 0, 0, Action.Direct⟩ (.error ⟨"refused"⟩)
          107]
    ∧ regLookup (⟨1, [], ⟨⟨"A"⟩, 0⟩⟩ : State).connections 0 = none
    ∧ (.error ⟨"refused"⟩ : Except IoError Unit) = envFail.direct_tcp :=
  have H := claim_C5 cDirect envFail sA0 "ra" addrEx Action.Direct
    [Ev.ruleLookup "example.com", Ev.logRuleAction addrEx Action.Direct]
    (.error ⟨"refused"⟩) ⟨1, [], ⟨⟨"A"⟩, 0⟩⟩ evsC5 rfl rfl
  ⟨H.1, H.2.1, H.2.2.1, H.2.2.2.2.1 rfl⟩

/-- C7: per TCP flow the trace decomposes as resolver events, then the
registration, then the dispatch events, then the deregistration followed
by the lifecycle line — so registration strictly precedes backend
dispatch, which strictly precedes deregistration and the log line, on the
failure path as well; a `Reject` flow has no dispatch events at all
between registration and deregistration, a `Direct` flow exactly the
direct-backend call, a `Proxy` flow the failover events followed by the
proxy-backend call. -/
theorem claim_C7 (c : RuledClient) (env : Env) (s : State) (ra : SockAddr)
    (addr : Address) (a : Action) (evs0 : List Ev)
    (ret : Except IoError Unit) (s3 : State) (evs : List Ev)
    (hres : get_action_for_addr c env ra addr = (.ok a, evs0))
    (h : handle_tcp c env s ra addr = some (ret, s3, evs)) :
    ∃ dvs,
      evs = evs0
          ++ [Ev.register s.counter ⟨addr, env.time_register, 0, 0, a⟩]
          ++ dvs
          ++ [Ev.deregister s.counter
                (some ⟨addr, env.time_register, 0, 0, a⟩),
              Ev.lifecycle (lineFor s.counter
                ⟨addr, env.time_register, 0, 0, a⟩ ret env.time_close)]
      ∧ evs0.filter isDispatch = []
      ∧ registerIds evs0 = [] ∧ deregisters evs0 = [] ∧ lifecycles evs0 = []
      ∧ registerIds dvs = [] ∧ deregisters dvs = [] ∧ lifecycles dvs = []
      ∧ (a = Action.Reject → dvs = [])
      ∧ (a = Action.Direct → dvs = [Ev.dispatchDirectTcp addr])
      ∧ (a = Action.Proxy →
          ∃ fevs, dvs = fevs ++ [Ev.dispatchProxyTcp addr]
            ∧ fevs.filter isDispatch = []) := by
  obtain ⟨s2, dvs, hd, hs3, hevs⟩ :=
    handle_tcp_some_shape c env s ra addr a evs0 ret s3 evs hres h
  have hsc := tcp_dispatch_state c env _ addr a ret s2 dvs hd
  have hlook : regLookup s2.connections s.counter
      = some ⟨addr, env.time_register, 0, 0, a⟩ := by
    rw [hsc.1]
    exact regLookup_regInsert_self s.connections s.counter _
  have hfinchar := tcp_finish_char s2 s.counter
    ⟨addr, env.time_register, 0, 0, a⟩ ret env.time_close hlook
  have hfevs : (tcp_finish s2 s.counter ret env.time_close).2 =
      [Ev.deregister s.counter (some ⟨addr, env.time_register, 0, 0, a⟩),
        Ev.lifecycle (lineFor s.counter ⟨addr, env.time_register, 0, 0, a⟩
          ret env.time_close)] := by
    rw [hfinchar]
  have hall := get_action_trace c env ra addr
  rw [hres] at hall
  obtain ⟨h1, -, h3, h4, -, h6⟩ := resolve_trace_extractors evs0 hall
  obtain ⟨-, hdi, hdd, hdl⟩ := tcp_dispatch_evs c env _ addr a ret s2 dvs hd
  refine ⟨dvs, ?_, h6, h1, h3, h4, hdi, hdd, hdl, ?_, ?_, ?_⟩
  · rw [hevs, hfevs]
  · intro ha
    subst ha
    rw [tcp_dispatch_reject] at hd
    simp only [Option.some.injEq, Prod.mk.injEq] at hd
    exact hd.2.2.symm
  · intro ha
    subst ha
    rw [tcp_dispatch_direct] at hd
    simp only [Option.some.injEq, Prod.mk.injEq] at hd
    exact hd.2.2.symm
  · intro ha
    subst ha
    unfold tcp_dispatch at hd
    simp only [tcp_register_eval] at hd
    rcases hf : failover_check c.conf s.ss with - | ⟨ss2, fevs⟩
    · rw [hf] at hd
      exact absurd hd (by simp)
    · rw [hf] at hd
      simp only [Option.some.injEq, Prod.mk.injEq] at hd
      refine ⟨fevs, hd.2.2.symm, ?_⟩
      rcases failover_check_evs c.conf s.ss ss2 fevs hf with hf0 | ⟨x, y, hf0⟩
          <;> subst hf0 <;> rfl

/-- C7 witness: the failed `Direct` run's trace decomposes as resolver
events, registration, the single direct dispatch, then deregistration and
the lifecycle line. -/
theorem claim_C7_witness :
    evsC5 = [Ev.ruleLookup "example.com",
          Ev.logRuleAction addrEx Action.Direct]
        ++ [Ev.register 0 ⟨addrEx, 100, 0, 0, Action.Direct⟩]
        ++ [Ev.dispatchDirectTcp addrEx]
        ++ [Ev.deregister 0 (some ⟨addrEx, 100, 0, 0, Action.Direct⟩),
            Ev.lifecycle (lineFor 0 ⟨addrEx, 100, 0, 0, Action.Direct⟩
              (.error ⟨"refused"⟩) 107)] := by
  obtain ⟨dvs, he, -, -, -, -, -, -, -, -, hdir, -⟩ :=
    claim_C7 cDirect envFail sA0 "ra" addrEx Action.Direct
      [Ev.ruleLookup "example.com", Ev.logRuleAction addrEx Action.Direct]
      (.error ⟨"refused"⟩) ⟨1, [], ⟨⟨"A"⟩, 0⟩⟩ evsC5 rfl rfl
  rw [he, hdir rfl]
  rfl

theorem handle_tcp_ids_cases (c : RuledClient) (env : Env) (s : State)
    (ra : SockAddr) (addr : Address) (ret : Except IoError Unit) (s2 : State)
    (evs : List Ev)
    (h : handle_tcp c env s ra addr = some (ret, s2, evs)) :
    (registerIds evs = [] ∧ s2 = s)
    ∨ (registerIds evs = [s.counter] ∧
        s2.counter = (s.counter + 1) % 2 ^ 64) := by
  rcases hres : get_action_for_addr c env ra addr with ⟨r, evs0⟩
  have hall := get_action_trace c env ra addr
  rw [hres] at hall
  rcases r with e | a
  · rw [handle_tcp_of_resolve_error c env s ra addr e evs0 hres] at h
    simp only [Option.some.injEq, Prod.mk.injEq] at h
    exact Or.inl ⟨h.2.2 ▸ (resolve_trace_extractors evs0 hall).1,
      h.2.1.symm⟩
  · obtain ⟨s2d, dvs, hd, hs2, hevs⟩ :=
      handle_tcp_some_shape c env s ra addr a evs0 ret s2 evs hres h
    have h1 := (resolve_trace_extractors evs0 hall).1
    have hdd := (tcp_dispatch_evs c env _ addr a ret s2d dvs hd).2.1
    have hfin := (tcp_finish_no_register s2d s.counter ret env.time_close).2
    refine Or.inr ⟨?_, ?_⟩
    · rw [hevs, registerIds_append, registerIds_append, registerIds_append,
        h1, hdd, hfin]
      rfl
    · rw [hs2]
      have hfc : (tcp_finish s2d s.counter ret env.time_close).1.counter
          = s2d.counter := rfl
      rw [hfc, (tcp_dispatch_state c env _ addr a ret s2d dvs hd).2]
      rfl

theorem run_tcp_ids_invariant (c : RuledClient) :
    ∀ (reqs : List TcpReq) (s : State),
      s.counter + reqs.length ≤ 2 ^ 64 →
      List.Chain' (· < ·) (run_tcp_list c s reqs).2
      ∧ ∀ i ∈ (run_tcp_list c s reqs).2,
          s.counter ≤ i ∧ i < s.counter + reqs.length := by
  intro reqs
  induction reqs with
  | nil =>
      intro s hs
      exact ⟨List.chain'_nil, by simp [run_tcp_list]⟩
  | cons r rest ih =>
      intro s hs
      unfold run_tcp_list
      rcases hh : handle_tcp c r.env s r.remote_addr r.addr with
        - | ⟨ret, s2, evs⟩
      · exact ⟨List.chain'_nil, by simp⟩
      · dsimp only
        rcases handle_tcp_ids_cases c r.env s r.remote_addr r.addr ret s2
            evs hh with ⟨hids, hsame⟩ | ⟨hids, hcnt⟩
        · rw [hids, List.nil_append, hsame]
          have hrec := ih s (by simp only [List.length_cons] at hs; omega)
          refine ⟨hrec.1, ?_⟩
          intro i hi
          have := hrec.2 i hi
          simp only [List.length_cons]
          omega
        · rw [hids]
          rcases rest with - | ⟨r2, rest2⟩
          · rw [run_tcp_list]
            refine ⟨?_, ?_⟩
            · simp
            · intro i hi
              simp only [List.append_nil, List.mem_singleton] at hi
              subst hi
              simp only [List.length_cons, List.length_nil]
              omega
          · have hlt : s.counter + 1 < 2 ^ 64 := by
              simp only [List.length_cons] at hs
              omega
            have hcnt2 : s2.counter = s.counter + 1 := by
              rw [hcnt, Nat.mod_eq_of_lt hlt]
            have hrec := ih s2 (by
              rw [hcnt2]
              simp only [List.length_cons] at hs ⊢
              omega)
            have hcons : ([s.counter] ++ (run_tcp_list c s2 (r2 :: rest2)).2)
                = s.counter :: (run_tcp_list c s2 (r2 :: rest2)).2 := rfl
            rw [hcons]
            refine ⟨?_, ?_⟩
            · rw [List.chain'_cons']
              refine ⟨?_, hrec.1⟩
              intro b hb
              have hmem : b ∈ (run_tcp_list c s2 (r2 :: rest2)).2 :=
                List.mem_of_mem_head? hb
              have := hrec.2 b hmem
              omega
            · intro i hi
              rcases List.mem_cons.mp hi with hi0 | hi1
              · subst hi0
                simp only [List.length_cons]
                omega
              · have := hrec.2 i hi1
                simp only [List.length_cons] at this ⊢
                omega

/-- C9: connection ids are issued by fetch-and-increment of the shared
64-bit counter: across a sequence of flows starting from counter 0 with at
most `2 ^ 64` flows, the issued ids are strictly increasing in issuance
order and pairwise distinct (never reused); and an id is present in the
registry between its registration and its deregistration: immediately
after registration the id maps to the stored record, and after the
deregistration step the id is absent. -/
theorem claim_C9 (c : RuledClient) (s : State) (reqs : List TcpReq)
    (h0 : s.counter = 0) (hlen : reqs.length ≤ 2 ^ 64) :
    List.Chain' (· < ·) (run_tcp_list c s reqs).2
    ∧ List.Pairwise (· ≠ ·) (run_tcp_list c s reqs).2
    ∧ (∀ (s1 : State) (addr : Address) (a : Action) (t : Int),
        regLookup ((tcp_register s1 addr a t).2.2).connections
            (tcp_register s1 addr a t).1
          = some (tcp_register s1 addr a t).2.1)
    ∧ (∀ (s1 : State) (idx : Nat) (ret : Except IoError Unit) (t : Int),
        regLookup ((tcp_finish s1 idx ret t).1).connections idx = none) := by
  have hinv := run_tcp_ids_invariant c reqs s (by omega)
  refine ⟨hinv.1, ?_, ?_, ?_⟩
  · have hp := List.chain'_iff_pairwise.mp hinv.1
    exact hp.imp Nat.ne_of_lt
  · intro s1 addr a t
    exact regLookup_regInsert_self s1.connections s1.counter _
  · intro s1 idx ret t
    have hconn : (tcp_finish s1 idx ret t).1.connections
        = s1.connections.filter fun p => !(p.1 == idx) := rfl
    rw [hconn]
    exact regLookup_filter_ne s1.connections idx

/-- Two identical benign requests. -/
def reqs2 : List TcpReq := [⟨envBase, "ra", addrEx⟩, ⟨envBase, "ra", addrEx⟩]

/-- C9 witness: two flows from counter 0 issue strictly increasing,
pairwise-distinct ids; a registered id maps to its record and is absent
after the deregistration step. -/
theorem claim_C9_witness :
    List.Chain' (· < ·) (run_tcp_list cReject sA0 reqs2).2
    ∧ List.Pairwise (· ≠ ·) (run_tcp_list cReject sA0 reqs2).2
    ∧ regLookup ((tcp_register sA0 addrEx Action.Reject 100).2.2).connections
        (tcp_register sA0 addrEx Action.Reject 100).1
      = some (tcp_register sA0 addrEx Action.Reject 100).2.1
    ∧ regLookup ((tcp_finish sA0 0 (.ok ()) 107).1).connections 0 = none :=
  have H := claim_C9 cReject sA0 reqs2 rfl (by norm_num [reqs2])
  ⟨H.1, H.2.1, H.2.2.1 sA0 addrEx Action.Reject 100,
    H.2.2.2 sA0 0 (.ok ()) 107⟩

end Seeker
